import Mathlib

/-!
Verification of the prompt-to-scene-breakdown core of the `slop` repository.

The TypeScript sources (`src/lib/openai/scene-analysis.ts`,
`src/lib/utils/validation.ts`, and the validation utilities of
`src/unnamed/part_005`) are shallowly embedded here: strings are Lean
`String`s, JavaScript string methods are modelled as executable functions on
`List Char`, and the external text-completion service is modelled as a list
of optional responses consumed one per outbound call (`none` = the call
fails).  All definitions follow the TypeScript control flow directly.
-/

set_option maxRecDepth 100000

namespace Slop

/-! ## JavaScript string primitives -/

/-- JavaScript whitespace (`\s`), restricted to the ASCII whitespace
characters that can occur in this code base. -/
def jsIsSpace (c : Char) : Bool :=
  c = ' ' || c = '\t' || c = '\n' || c = '\r' || c.val = 11 || c.val = 12

/-- JavaScript word character (`\w`): ASCII letters, digits, underscore. -/
def isWordChar (c : Char) : Bool :=
  c.isAlphanum || c = '_'

/-- `s.toLowerCase()` (ASCII, which is all this code base uses). -/
def jsToLower (s : String) : String :=
  String.mk (s.data.map Char.toLower)

/-- `s.toUpperCase()` (ASCII). -/
def jsToUpper (s : String) : String :=
  String.mk (s.data.map Char.toUpper)

/-- Executable substring test on character lists. -/
def listIsInfix (needle : List Char) : List Char → Bool
  | [] => needle.isEmpty
  | c :: t => needle.isPrefixOf (c :: t) || listIsInfix needle t

/-- `s.includes(sub)`: substring containment. -/
def jsIncludes (s sub : String) : Bool :=
  listIsInfix sub.data s.data

/-- `l.trim()` on character lists: drop whitespace from both ends. -/
def trimL (cs : List Char) : List Char :=
  ((cs.dropWhile jsIsSpace).reverse.dropWhile jsIsSpace).reverse

/-- `s.trim()`. -/
def trimS (s : String) : String :=
  String.mk (trimL s.data)

/-- Prepend a character to the first segment of a split result. -/
def consHead (c : Char) : List (List Char) → List (List Char)
  | [] => [[c]]
  | h :: t => (c :: h) :: t

/-- Fuel-bounded `s.split(sep)` for a non-empty literal separator:
non-overlapping occurrences, scanning left to right (each step consumes at
least one character, so fuel `cs.length + 1` is sufficient). -/
def splitOnListF (sep : List Char) : Nat → List Char → List (List Char)
  | 0, _ => [[]]
  | _ + 1, [] => [[]]
  | fuel + 1, c :: rest =>
    if sep.isPrefixOf (c :: rest) then
      [] :: splitOnListF sep fuel ((c :: rest).drop sep.length)
    else
      consHead c (splitOnListF sep fuel rest)

/-- `s.split(sep)` on strings. -/
def jsSplitOn (s sep : String) : List String :=
  (splitOnListF sep.data (s.data.length + 1) s.data).map String.mk

/-- `s.startsWith(p)`. -/
def jsStartsWith (s p : String) : Bool :=
  p.data.isPrefixOf s.data

/-! ## A small backtracking matcher for the few regexes of the source

The source uses a handful of fixed regular expressions built from literal
characters, `\s+`, `.*` and `\b`.  They are embedded as atom sequences and
matched by an exhaustive backtracking search, which is exactly the JS
semantics of `regex.test(s)` for these patterns. -/

/-- One regex atom of the patterns appearing in the source. -/
inductive RAtom
  | lit (c : Char)
  | wsPlus
  | dotStar
  | boundaryB
deriving DecidableEq

/-- `.` of JavaScript regexes: any character except a line terminator. -/
def dotChar (c : Char) : Bool :=
  !(c = '\n' || c = '\r')

/-- `\b`: exactly one of the two surrounding characters is a word char. -/
def wordB (prev next : Option Char) : Bool :=
  (match prev with | none => false | some c => isWordChar c) !=
  (match next with | none => false | some c => isWordChar c)

/-- Fuel-bounded backtracking: can `atoms` match a prefix of `cs`
(case-insensitively), where `prev` is the character just before `cs` in the
subject string?  Every recursive call strictly decreases
`atoms.length + cs.length`, so fuel `atoms.length + cs.length + 1` is always
sufficient; the fuel only makes the recursion structural. -/
def matchAtomsF : Nat → List RAtom → Option Char → List Char → Bool
  | 0, _, _, _ => false
  | _ + 1, [], _, _ => true
  | fuel + 1, .boundaryB :: rest, prev, cs =>
      wordB prev cs.head? && matchAtomsF fuel rest prev cs
  | _ + 1, .lit _ :: _, _, [] => false
  | fuel + 1, .lit a :: rest, _, c :: t =>
      (a.toLower == c.toLower) && matchAtomsF fuel rest (some c) t
  | _ + 1, .wsPlus :: _, _, [] => false
  | fuel + 1, .wsPlus :: rest, _, c :: t =>
      jsIsSpace c &&
        (matchAtomsF fuel rest (some c) t || matchAtomsF fuel (.wsPlus :: rest) (some c) t)
  | fuel + 1, .dotStar :: rest, prev, [] => matchAtomsF fuel rest prev []
  | fuel + 1, .dotStar :: rest, prev, c :: t =>
      matchAtomsF fuel rest prev (c :: t) ||
      (dotChar c && matchAtomsF fuel (.dotStar :: rest) (some c) t)

/-- Entry point with sufficient fuel. -/
def matchAtoms (atoms : List RAtom) (prev : Option Char) (cs : List Char) : Bool :=
  matchAtomsF (atoms.length + cs.length + 1) atoms prev cs

/-- `regex.test(s)`: does any alternative match anywhere in the subject? -/
def searchPattern (alts : List (List RAtom)) (prev : Option Char) (cs : List Char) : Bool :=
  alts.any (fun a => matchAtoms a prev cs) ||
  (match cs with
   | [] => false
   | c :: t => searchPattern alts (some c) t)

/-- Literal (case-insensitive) atoms of a string. -/
def litsOf (s : String) : List RAtom :=
  s.data.map RAtom.lit

/-- Test `\b(alt1|...|altn)\b` with the `i` flag against a string. -/
def regexTestB (alts : List (List RAtom)) (s : String) : Bool :=
  searchPattern (alts.map (fun a => RAtom.boundaryB :: a ++ [RAtom.boundaryB])) none s.data

/-- `/\b(w1|...|wn)\b/i.test(s)` for literal words. -/
def wordBoundaryTest (words : List String) (s : String) : Bool :=
  regexTestB (words.map litsOf) s

/-- Fuel-bounded scan counting non-overlapping matches of `w1|...|wn` in a
character list, left to right (the basis of `String.split(regex)`; the
number of split segments is this count plus one).  Each step consumes at
least one character, so fuel `cs.length + 1` is sufficient. -/
def splitAltCountF (words : List (List Char)) : Nat → List Char → Nat
  | 0, _ => 0
  | _ + 1, [] => 0
  | fuel + 1, c :: rest =>
    match words.find? (fun w => w.isPrefixOf (c :: rest)) with
    | some w => 1 + splitAltCountF words fuel (rest.drop (w.length - 1))
    | none => splitAltCountF words fuel rest

/-- Entry point with sufficient fuel. -/
def splitAltCount (words : List (List Char)) (cs : List Char) : Nat :=
  splitAltCountF words (cs.length + 1) cs

/-! ## Complexity classifier (`scene-analysis.ts`) -/

/-- The `'simple' | 'moderate' | 'complex'` union type. -/
inductive Complexity
  | simple
  | moderate
  | complex
deriving DecidableEq, Repr

/-- Return type of `detectComplexity` / `fallbackComplexityAnalysis`. -/
structure ComplexityResult where
  isMultiScene : Bool
  sceneCount : Nat
  complexity : Complexity
deriving DecidableEq, Repr

/-- The fixed strong-sequence keyword list of `detectMultiSceneIndicators`
(`scene-analysis.ts`, lines 431-435). -/
def strongSequenceKeywords : List String :=
  ["then ", "next ", "after that", "later ", "finally ",
   "first ", "second ", "third ", "step 1", "step 2", "step 3",
   "part 1", "part 2", "part 3"]

/-- `detectMultiSceneIndicators` (`scene-analysis.ts`, lines 427-458): the
conservative multi-scene AND-gate of the primary path. -/
def detectMultiSceneIndicators (prompt analysis : String) : Bool :=
  let lowerPrompt := jsToLower prompt
  let sequenceCount := strongSequenceKeywords.foldl
    (fun n keyword => if jsIncludes lowerPrompt keyword then n + 1 else n) 0
  let hasMultipleSequences : Bool := decide (2 ≤ sequenceCount)
  let isLongEnough : Bool := decide (250 < prompt.length)
  let hasTemporalProgression : Bool := jsIncludes lowerPrompt "then " &&
    (jsIncludes lowerPrompt "after" || jsIncludes lowerPrompt "later" ||
     jsIncludes lowerPrompt "finally")
  hasMultipleSequences && isLongEnough && hasTemporalProgression

/-- `parseInt` on the digit run captured by `/(\d+)\s*scene/i`. -/
def digitsToNat (ds : List Char) : Nat :=
  ds.foldl (fun n c => n * 10 + (c.toNat - '0'.toNat)) 0

/-- `analysis.match(/(\d+)\s*scene/i)`: the digit group of the leftmost
match, if any.  A maximal digit run must be followed by optional whitespace
and then `scene` (case-insensitively); attempts starting inside a digit run
fail exactly when the attempt at the start of the run fails, so whole runs
are skipped. -/
def matchNumberSceneF : Nat → List Char → Option Nat
  | 0, _ => none
  | _ + 1, [] => none
  | fuel + 1, c :: rest =>
    if c.isDigit then
      let run := (c :: rest).takeWhile Char.isDigit
      let after := rest.dropWhile Char.isDigit
      if "scene".data.isPrefixOf ((after.dropWhile jsIsSpace).map Char.toLower) then
        some (digitsToNat run)
      else matchNumberSceneF fuel after
    else matchNumberSceneF fuel rest

/-- Entry point with sufficient fuel (each step consumes at least one
character). -/
def matchNumberScene (cs : List Char) : Option Nat :=
  matchNumberSceneF (cs.length + 1) cs

/-- The sequence-indicator list of `estimateSceneCount` (line 468). -/
def sequenceIndicators : List String :=
  ["then", "next", "after", "finally", "first", "second", "third"]

/-- `estimateSceneCount` (`scene-analysis.ts`, lines 460-478). -/
def estimateSceneCount (prompt analysis : String) : Nat :=
  match matchNumberScene analysis.data with
  | some n => min n 5
  | none =>
    let lowerPrompt := jsToLower prompt
    let sceneCount := sequenceIndicators.foldl
      (fun acc indicator => acc + ((jsSplitOn lowerPrompt indicator).length - 1)) 1
    min (max sceneCount 2) 5

/-- `assessComplexity` (`scene-analysis.ts`, lines 480-503): keyword scan of
the analysis text in the fixed order simple, moderate, complex, then a
length/indicator fallback. -/
def assessComplexity (prompt analysis : String) : Complexity :=
  let lowerAnalysis := jsToLower analysis
  if ["simple", "basic", "straightforward", "single"].any
      (fun k => jsIncludes lowerAnalysis k) then
    Complexity.simple
  else if ["moderate", "medium", "some", "few"].any
      (fun k => jsIncludes lowerAnalysis k) then
    Complexity.moderate
  else if ["complex", "complicated", "multiple", "many", "several"].any
      (fun k => jsIncludes lowerAnalysis k) then
    Complexity.complex
  else if decide (200 < prompt.length) || detectMultiSceneIndicators prompt analysis then
    Complexity.complex
  else if decide (100 < prompt.length) then
    Complexity.moderate
  else
    Complexity.simple

/-- The non-throwing body of `detectComplexity` (lines 141-152), given the
text `analysis` produced by the completion service. -/
def detectComplexityPure (prompt analysis : String) : ComplexityResult :=
  let isMultiScene := detectMultiSceneIndicators prompt analysis
  let sceneCount := if isMultiScene then estimateSceneCount prompt analysis else 1
  let complexity := assessComplexity prompt analysis
  { isMultiScene, sceneCount := min sceneCount 5, complexity }

/-- The alternatives of the fallback gate regex
`/\b(then\s+|next\s+|after\s+that|finally\s+|first\s+.*second\s+|step\s+1.*step\s+2)\b/i`
(line 682). -/
def fallbackSeqAlts : List (List RAtom) :=
  [litsOf "then" ++ [RAtom.wsPlus],
   litsOf "next" ++ [RAtom.wsPlus],
   litsOf "after" ++ [RAtom.wsPlus] ++ litsOf "that",
   litsOf "finally" ++ [RAtom.wsPlus],
   litsOf "first" ++ [RAtom.wsPlus, RAtom.dotStar] ++ litsOf "second" ++ [RAtom.wsPlus],
   litsOf "step" ++ [RAtom.wsPlus, RAtom.lit '1', RAtom.dotStar] ++
     litsOf "step" ++ [RAtom.wsPlus, RAtom.lit '2']]

/-- The split alternatives `then|next|after|finally` (lines 684 and 688). -/
def seqSplitWords : List (List Char) :=
  ["then".data, "next".data, "after".data, "finally".data]

/-- `fallbackComplexityAnalysis` (`scene-analysis.ts`, lines 676-692): the
pure heuristic used when the completion call fails. -/
def fallbackComplexityAnalysis (prompt : String) : ComplexityResult :=
  let strongSequenceWords := regexTestB fallbackSeqAlts prompt
  let isVeryLong : Bool := decide (250 < prompt.length)
  let hasMultipleClearSteps : Bool :=
    decide (3 < splitAltCount seqSplitWords (jsToLower prompt).data + 1)
  let isMultiScene := strongSequenceWords && isVeryLong && hasMultipleClearSteps
  let sceneCount :=
    if isMultiScene then
      min (splitAltCount seqSplitWords (prompt.data.map Char.toLower) + 1) 3
    else 1
  let complexity :=
    if isMultiScene then
      (if 2 < sceneCount then Complexity.complex else Complexity.moderate)
    else Complexity.simple
  { isMultiScene, sceneCount, complexity }

/-! ## Character identifier (`scene-analysis.ts`) -/

/-- Return type of `identifyCharacters` / `fallbackCharacterAnalysis`. -/
structure CharacterAnalysis where
  requiresConsistency : Bool
  characters : List String
deriving DecidableEq, Repr

/-- The "no human characters" response phrases (lines 509-512). -/
def noHumanPhrases : List String :=
  ["no human characters found", "no human characters", "only animals",
   "only contains animals"]

/-- Human-role line keywords of `extractCharacterNames` (lines 520-523). -/
def humanLineKeywords : List String :=
  ["human:", "person", "man", "woman", "friend", "chef", "teacher", "worker"]

/-- Animal exclusion keywords of `extractCharacterNames` (lines 525-526). -/
def animalLineKeywords : List String :=
  ["capybara", "dog", "cat", "animal"]

/-- `extractCharacterNames` (`scene-analysis.ts`, lines 505-536). -/
def extractCharacterNames (characterText : String) : List String :=
  if noHumanPhrases.any (fun p => jsIncludes (jsToLower characterText) p) then []
  else
    let lines := jsSplitOn characterText "\n"
    let picked := lines.filterMap (fun line =>
      let lowerLine := jsToLower line
      if humanLineKeywords.any (fun k => jsIncludes lowerLine k) &&
          animalLineKeywords.all (fun k => !(jsIncludes lowerLine k)) then
        let cleaned := trimS (String.mk (line.data.filter
          (fun c => isWordChar c || jsIsSpace c)))
        if 0 < cleaned.length then some cleaned else none
      else none)
    picked.take 3

/-- The consistency-indicator list of `needsCharacterConsistency`
(lines 542-546). -/
def consistencyIndicators : List String :=
  ["then", "next", "after", "later", "continues", "goes",
   "he ", "she ", "they ", "him ", "her ", "them ",
   "same", "character", "person"]

/-- `needsCharacterConsistency` (`scene-analysis.ts`, lines 538-549). -/
def needsCharacterConsistency (prompt : String) : Bool :=
  consistencyIndicators.any (fun indicator => jsIncludes (jsToLower prompt) indicator)

/-- The non-throwing body of `identifyCharacters` (lines 190-199), given the
text `characterText` produced by the completion service. -/
def identifyCharactersPure (prompt characterText : String) : CharacterAnalysis :=
  let characters := extractCharacterNames characterText
  let requiresConsistency := decide (0 < characters.length) &&
    needsCharacterConsistency prompt
  { requiresConsistency, characters }

/-- Human-role keyword list of `fallbackCharacterAnalysis` (line 699). -/
def humanCharacterWords : List String :=
  ["person", "man", "woman", "guy", "girl", "chef", "teacher", "friend",
   "worker", "doctor", "student"]

/-- Animal keyword list of `fallbackCharacterAnalysis` (line 705). -/
def animalWords : List String :=
  ["capybara", "dog", "cat", "bird", "animal", "pet"]

/-- The pronoun alternatives of `/\b(he|she|they|him|her|them)\b/i`. -/
def pronounWords : List String :=
  ["he", "she", "they", "him", "her", "them"]

/-- `fallbackCharacterAnalysis` (`scene-analysis.ts`, lines 694-733). -/
def fallbackCharacterAnalysis (prompt : String) : CharacterAnalysis :=
  let lowerPrompt := jsToLower prompt
  let hasAnimals := animalWords.any (fun animal => jsIncludes lowerPrompt animal)
  if hasAnimals && !(humanCharacterWords.any fun human => jsIncludes lowerPrompt human) then
    { requiresConsistency := false, characters := [] }
  else
    let characters := humanCharacterWords.filter (fun word => jsIncludes lowerPrompt word)
    let hasPronouns := wordBoundaryTest pronounWords prompt
    let requiresConsistency := decide (0 < characters.length) &&
      (hasPronouns || wordBoundaryTest ["then", "next", "after"] prompt)
    { requiresConsistency, characters := characters.take 2 }

/-! ## Data model (`types.ts`) -/

/-- `SceneInfo` (flat record; `duration` is fixed at 8 by all call sites). -/
structure SceneInfo where
  sceneNumber : Nat
  description : String
  duration : Nat
  characters : List String
  visualElements : List String
  audioElements : List String
deriving DecidableEq, Repr

/-- `CharacterDescription`. -/
structure CharacterDescription where
  characterId : String
  name : String
  detailedDescription : String
  age : String
  hair : String
  clothing : String
  facialFeatures : String
  accessories : String
  uniqueIdentifiers : List String
deriving DecidableEq, Repr

/-! ## Sentence splitting and keyword extraction -/

/-- The sentence separators of `text.split(/[.!?]+/)`. -/
def isSentenceSep (c : Char) : Bool :=
  c = '.' || c = '!' || c = '?'

mutual

/-- `s.split(/[sep]+/)`: split at maximal nonempty runs of separator
characters (JS semantics: leading/trailing separators yield empty
segments, consecutive separators are merged). -/
def splitOnRuns (sep : Char → Bool) : List Char → List (List Char)
  | [] => [[]]
  | c :: rest =>
      if sep c then [] :: splitAfterSep sep rest
      else consHead c (splitOnRuns sep rest)

/-- Continuation of `splitOnRuns` inside a separator run. -/
def splitAfterSep (sep : Char → Bool) : List Char → List (List Char)
  | [] => [[]]
  | c :: rest =>
      if sep c then splitAfterSep sep rest
      else consHead c (splitOnRuns sep rest)

end

/-- `extractDetail` (`scene-analysis.ts`, lines 572-583): first sentence
containing one of the keywords, trimmed; empty string if none. -/
def extractDetail (text : String) (keywords : List String) : String :=
  let sentences := (splitOnRuns isSentenceSep text.data).map String.mk
  match sentences.find? (fun s => keywords.any (fun k => jsIncludes (jsToLower s) k)) with
  | some s => trimS s
  | none => ""

/-- Keyword list of `extractUniqueDetails` (lines 592-595). -/
def uniqueDetailKeywords : List String :=
  ["distinctive", "unique", "specific", "particular"]

/-- `extractUniqueDetails` (`scene-analysis.ts`, lines 585-601). -/
def extractUniqueDetails (text : String) : List String :=
  ((((splitOnRuns isSentenceSep text.data).map String.mk).filter
      (fun s => uniqueDetailKeywords.any (fun k => jsIncludes (jsToLower s) k))).map
    trimS).take 3

/-- `extractElements` (`scene-analysis.ts`, lines 660-672): up to 3 trimmed
sentences containing one of the keywords. -/
def extractElements (text : String) (keywords : List String) : List String :=
  ((((splitOnRuns isSentenceSep text.data).map String.mk).filter
      (fun s => keywords.any (fun k => jsIncludes (jsToLower s) k))).map
    trimS).take 3

/-- JS `x || 'default'` for strings (empty string is falsy). -/
def orDefault (s dflt : String) : String :=
  if s = "" then dflt else s

/-- `parseCharacterDescription` (`scene-analysis.ts`, lines 551-570). -/
def parseCharacterDescription (character descriptionText : String) (index : Nat) :
    CharacterDescription :=
  { characterId := "char_" ++ toString (index + 1),
    name := character,
    detailedDescription := trimS descriptionText,
    age := orDefault (extractDetail descriptionText ["age"]) "in their 20s",
    hair := orDefault (extractDetail descriptionText ["hair"]) "shoulder-length brown hair",
    clothing := orDefault (extractDetail descriptionText ["clothing", "wear"]) "casual clothing",
    facialFeatures := orDefault (extractDetail descriptionText ["face", "features", "eyes"])
      "friendly expression",
    accessories := orDefault (extractDetail descriptionText ["accessories", "jewelry"])
      "minimal jewelry",
    uniqueIdentifiers := extractUniqueDetails descriptionText }

/-- `createBasicCharacterDescription` (`scene-analysis.ts`, lines 735-747). -/
def createBasicCharacterDescription (character : String) (index : Nat) :
    CharacterDescription :=
  { characterId := "char_" ++ toString (index + 1),
    name := character,
    detailedDescription := "A person described as " ++ character ++
      " with distinctive features for video consistency.",
    age := "in their 20s or 30s",
    hair := "medium-length hair",
    clothing := "appropriate attire for the scene",
    facialFeatures := "clear, expressive features",
    accessories := "minimal accessories",
    uniqueIdentifiers := ["distinctive " ++ character ++ " appearance"] }

/-! ## Scene breakdown generator (`scene-analysis.ts`) -/

/-- `createSingleScene` (lines 299-308). -/
def createSingleScene (prompt : String) : SceneInfo :=
  { sceneNumber := 1, description := prompt, duration := 8, characters := [],
    visualElements := [], audioElements := [] }

/-- The `SCENE:`-prefixed lines of the response (lines 607-610): split on
newlines, keep lines whose trimmed uppercase form starts with `SCENE:`,
strip a leading `SCENE:` (case-insensitive, with following whitespace) from
the original line, trim, and drop empty results. -/
def sceneLines (sceneText : String) : List String :=
  (((jsSplitOn sceneText "\n").filter
      (fun line => jsStartsWith (jsToUpper (trimS line)) "SCENE:")).map
    (fun line =>
      let stripped :=
        if (jsToLower (String.mk (line.data.take 6))) = "scene:" then
          String.mk ((line.data.drop 6).dropWhile jsIsSpace)
        else line
      trimS stripped)).filter (fun line => 0 < line.length)

/-- Does the list start with a match of `scene\s*\d+` (case-insensitive,
greedy)?  If so, return the remainder after the match. -/
def matchSceneNum (cs : List Char) : Option (List Char) :=
  if ((cs.take 5).map Char.toLower) = "scene".data then
    let afterWs := (cs.drop 5).dropWhile jsIsSpace
    match afterWs with
    | c :: _ => if c.isDigit then some (afterWs.dropWhile Char.isDigit) else none
    | [] => none
  else none

/-- Fuel-bounded `s.split(/scene\s*\d+/i)` (each step consumes at least one
character, so fuel `cs.length + 1` is sufficient). -/
def splitSceneNumF : Nat → List Char → List (List Char)
  | 0, _ => [[]]
  | _ + 1, [] => [[]]
  | fuel + 1, c :: rest =>
    match matchSceneNum (c :: rest) with
    | some remainder => [] :: splitSceneNumF fuel remainder
    | none => consHead c (splitSceneNumF fuel rest)

/-- The padding scene pushed by the `while` loop of `parseSceneBreakdown`
(lines 646-655). -/
def placeholderScene (n : Nat) : SceneInfo :=
  { sceneNumber := n,
    description := "Additional scene " ++ toString n ++ " continuation",
    duration := 8, characters := [], visualElements := [], audioElements := [] }

/-- The `while (scenes.length < expectedSceneCount)` padding loop, which
runs `k = expectedSceneCount - scenes.length` times. -/
def padScenesF : Nat → List SceneInfo → List SceneInfo
  | 0, scenes => scenes
  | k + 1, scenes => padScenesF k (scenes ++ [placeholderScene (scenes.length + 1)])

/-- `sceneText.split(/scene\s*\d+/i).slice(1)` (line 615). -/
def sceneSections (sceneText : String) : List String :=
  ((splitSceneNumF (sceneText.data.length + 1) sceneText.data).map String.mk).drop 1

/-- The scene pushed for an indexed non-empty section in the section-split
path of `parseSceneBreakdown` (lines 616-627); empty sections are skipped. -/
def sectionSceneOpt (p : Nat × String) : Option SceneInfo :=
  let sec := trimS p.2
  if 0 < sec.length then
    some { sceneNumber := p.1 + 1,
           description := String.mk (sec.data.take 300),
           duration := 8, characters := [],
           visualElements := extractElements sec ["visual"],
           audioElements := extractElements sec ["audio", "sound"] }
  else none

/-- The scene pushed for an indexed SCENE:-line (lines 631-642). -/
def sceneLineScene (p : Nat × String) : SceneInfo :=
  { sceneNumber := p.1 + 1, description := p.2, duration := 8, characters := [],
    visualElements := extractElements p.2 ["visual", "camera", "light"],
    audioElements := extractElements p.2 ["audio", "sound", "music"] }

/-- `parseSceneBreakdown` (`scene-analysis.ts`, lines 603-658). -/
def parseSceneBreakdown (sceneText : String) (expectedSceneCount : Nat) : List SceneInfo :=
  let lines := sceneLines sceneText
  let scenes :=
    if lines.length = 0 then
      ((sceneSections sceneText).take expectedSceneCount).enum.filterMap sectionSceneOpt
    else
      (lines.take expectedSceneCount).enum.map sceneLineScene
  padScenesF (expectedSceneCount - scenes.length) scenes

/-- `createBasicSceneBreakdown` (`scene-analysis.ts`, lines 749-765):
deterministic equal-length slicing of the prompt. -/
def createBasicSceneBreakdown (prompt : String) (sceneCount : Nat) : List SceneInfo :=
  let promptLength := (prompt.length + sceneCount - 1) / sceneCount
  (List.range sceneCount).map (fun i =>
    { sceneNumber := i + 1,
      description := "Scene " ++ toString (i + 1) ++ ": " ++
        String.mk ((prompt.data.drop (i * promptLength)).take promptLength),
      duration := 8, characters := [], visualElements := [], audioElements := [] })

/-- `mapCharactersToScenes` (`scene-analysis.ts`, lines 317-329): every
character id is associated with every scene. -/
def mapCharactersToScenes (scenes : List SceneInfo)
    (characters : List CharacterDescription) : List (Nat × List String) :=
  scenes.map (fun scene => (scene.sceneNumber, characters.map (fun c => c.characterId)))

/-! ## Text sanitizers (`src/lib/utils/validation.ts` and `src/unnamed/part_005`) -/

/-- Suffix strictly after the first `>` in the list, if any. -/
def dropThroughGt : List Char → Option (List Char)
  | [] => none
  | c :: rest => if c = '>' then some rest else dropThroughGt rest

/-- Fuel-bounded global replace of `/<[^>]*>/g` with the empty string: at
each `<` with a later `>`, drop through the first `>` and continue after it;
a `<` with no later `>` is kept and scanning continues (each step consumes
at least one character, so fuel `cs.length + 1` is sufficient). -/
def removeTagsF : Nat → List Char → List Char
  | 0, cs => cs
  | _ + 1, [] => []
  | fuel + 1, c :: rest =>
    if c = '<' then
      match dropThroughGt rest with
      | some rest2 => removeTagsF fuel rest2
      | none => c :: removeTagsF fuel rest
    else c :: removeTagsF fuel rest

/-- `s.replace(/<[^>]*>/g, '')`. -/
def removeTags (cs : List Char) : List Char :=
  removeTagsF (cs.length + 1) cs

/-- If the lowercase pattern `pat` is a case-insensitive prefix of the list,
return the remainder after it. -/
def ciPrefixDrop (pat cs : List Char) : Option (List Char) :=
  if (cs.take pat.length).map Char.toLower = pat then some (cs.drop pat.length) else none

/-- Suffix after the first case-insensitive occurrence of a close tag
pattern (fuel-bounded scan). -/
def dropThroughClose (pat : List Char) : Nat → List Char → Option (List Char)
  | 0, _ => none
  | _ + 1, [] => none
  | fuel + 1, c :: rest =>
    match ciPrefixDrop pat (c :: rest) with
    | some rest2 => some rest2
    | none => dropThroughClose pat fuel rest

/-- Fuel-bounded global replace of
`/<script\b[^<]*(?:(?!<\/script>)<[^<]*)*<\/script>/gi` with the empty
string.  A match starts at `<script` at a word boundary and extends through
the first subsequent `</script>` (both case-insensitive); if there is no
closing tag the `<` is kept and scanning continues at the next character. -/
def removeScriptsF : Nat → List Char → List Char
  | 0, cs => cs
  | _ + 1, [] => []
  | fuel + 1, c :: rest =>
    if c = '<' then
      match ciPrefixDrop "script".data rest with
      | some afterTag =>
        if (match afterTag.head? with
            | some d => !(isWordChar d)
            | none => true) then
          match dropThroughClose ("</script>".data.map Char.toLower)
              (afterTag.length + 1) afterTag with
          | some rest2 => removeScriptsF fuel rest2
          | none => c :: removeScriptsF fuel rest
        else c :: removeScriptsF fuel rest
      | none => c :: removeScriptsF fuel rest
    else c :: removeScriptsF fuel rest

/-- The script-tag removal step of `sanitizePromptForVideo`. -/
def removeScripts (cs : List Char) : List Char :=
  removeScriptsF (cs.length + 1) cs

mutual

/-- `s.replace(/\s+/g, ' ')`: collapse each maximal whitespace run to a
single space. -/
def collapseWs : List Char → List Char
  | [] => []
  | c :: rest => if jsIsSpace c then ' ' :: skipWsTail rest else c :: collapseWs rest

/-- Continuation of `collapseWs` inside a whitespace run. -/
def skipWsTail : List Char → List Char
  | [] => []
  | c :: rest => if jsIsSpace c then skipWsTail rest else c :: collapseWs rest

end

/-- The character filter of `s.replace(/[<>]/g, '')`. -/
def notAngleChar (c : Char) : Bool :=
  !(c = '<' || c = '>')

/-- The character whitelist of
`s.replace(/[^\w\s\.,!?;:'"()\-#@&*+=/%]/g, '')` (apostrophe and double
quote written via their character codes). -/
def videoAllowedChar (c : Char) : Bool :=
  isWordChar c || jsIsSpace c || c = '.' || c = ',' || c = '!' || c = '?' ||
  c = ';' || c = ':' || c = Char.ofNat 39 || c = Char.ofNat 34 || c = '(' ||
  c = ')' || c = '-' || c = '#' || c = '@' || c = '&' || c = '*' || c = '+' ||
  c = '=' || c = '/' || c = '%'

/-- `sanitizeTextInput` (`src/lib/utils/validation.ts`, lines 127-140):
trim, strip HTML tags, strip remaining angle brackets, normalize
whitespace, trim. -/
def sanitizeTextInput (input : String) : String :=
  String.mk (trimL (collapseWs ((removeTags (trimL input.data)).filter notAngleChar)))

/-- `sanitizePromptForVideo` (`src/unnamed/part_005`, lines 1271-1287):
trim, strip HTML tags, strip script tags, strip angle brackets, keep only
whitelisted characters, normalize whitespace, trim. -/
def sanitizePromptForVideo (input : String) : String :=
  String.mk (trimL (collapseWs
    (((removeScripts (removeTags (trimL input.data))).filter notAngleChar).filter
      videoAllowedChar)))

/-! ## Prompt validation (`src/unnamed/part_005`, `types.ts`) -/

/-- The error codes used by `validatePrompt`. -/
inductive ErrorCode
  | VALIDATION_ERROR
  | PROMPT_TOO_SHORT
  | PROMPT_TOO_LONG
  | INVALID_CHARACTERS
  | FORBIDDEN_CONTENT
deriving DecidableEq, Repr

/-- `ValidationResult` (`types.ts`): either an error or the sanitized
prompt. -/
structure ValidationResult where
  isValid : Bool
  error : Option String := none
  code : Option ErrorCode := none
  sanitizedPrompt : Option String := none
deriving DecidableEq, Repr

/-- The character class of the allowed pattern
`/^[\w\s\.,!?;:'"()\-]+$/` of `DEFAULT_VALIDATION_CONSTRAINTS`
(`types.ts`, line 384; apostrophe and double quote written via their
character codes). -/
def allowedPatternChar (c : Char) : Bool :=
  isWordChar c || jsIsSpace c || c = '.' || c = ',' || c = '!' || c = '?' ||
  c = ';' || c = ':' || c = Char.ofNat 39 || c = Char.ofNat 34 || c = '(' ||
  c = ')' || c = '-'

/-- The placeholder forbidden-word list of the default constraints. -/
def forbiddenWords : List String :=
  ["test-forbidden-word"]

/-- `validatePrompt` (`src/unnamed/part_005`, lines 1297-1368) with the
default constraints (`types.ts`, lines 381-389): sanitize, reject empty,
enforce minLength 1 and maxLength 400, the allowed pattern, and the
forbidden words. -/
def validatePrompt (prompt : String) : ValidationResult :=
  let sanitized := sanitizePromptForVideo prompt
  if (trimS sanitized).length = 0 then
    { isValid := false, error := some "Prompt is required and cannot be empty",
      code := some ErrorCode.PROMPT_TOO_SHORT }
  else if sanitized.length < 1 then
    { isValid := false,
      error := some "Prompt must be at least 1 character long",
      code := some ErrorCode.PROMPT_TOO_SHORT }
  else if 400 < sanitized.length then
    { isValid := false,
      error := some "Prompt must be no more than 400 characters long",
      code := some ErrorCode.PROMPT_TOO_LONG }
  else if !(decide (0 < sanitized.length) && sanitized.data.all allowedPatternChar) then
    { isValid := false, error := some "Prompt contains invalid characters",
      code := some ErrorCode.INVALID_CHARACTERS }
  else if forbiddenWords.any (fun w => jsIncludes (jsToLower sanitized) (jsToLower w)) then
    { isValid := false, error := some "Prompt contains inappropriate content",
      code := some ErrorCode.FORBIDDEN_CONTENT }
  else
    { isValid := true, sanitizedPrompt := some sanitized }

/-! ## The completion-service model and the analysis pipeline -/

/-- The completion-service oracle: pending responses are consumed one per
outbound call (`none` = that call fails; an exhausted list also fails),
together with a counter of attempted calls. -/
structure SvcState where
  pending : List (Option String)
  calls : Nat
deriving DecidableEq, Repr

/-- One outbound completion call. -/
def callService (s : SvcState) : Option String × SvcState :=
  match s.pending with
  | [] => (none, { pending := [], calls := s.calls + 1 })
  | r :: rest => (r, { pending := rest, calls := s.calls + 1 })

/-- `detectComplexity` (`scene-analysis.ts`, lines 116-158): one completion
call parsed by the pure helpers; any failure falls back to
`fallbackComplexityAnalysis`. -/
def detectComplexityM (prompt : String) (s : SvcState) : ComplexityResult × SvcState :=
  match callService s with
  | (some analysis, s2) => (detectComplexityPure prompt analysis, s2)
  | (none, s2) => (fallbackComplexityAnalysis prompt, s2)

/-- `identifyCharacters` (`scene-analysis.ts`, lines 166-205). -/
def identifyCharactersM (prompt : String) (s : SvcState) : CharacterAnalysis × SvcState :=
  match callService s with
  | (some characterText, s2) => (identifyCharactersPure prompt characterText, s2)
  | (none, s2) => (fallbackCharacterAnalysis prompt, s2)

/-- The per-character loop of `generateCharacterDescriptions`
(lines 224-247): one call per character in order; the first failure aborts
the loop, and the surrounding catch block returns basic descriptions for
all characters (discarding any already parsed). -/
def generateDescsLoop (allChars : List String) :
    List String → Nat → List CharacterDescription → SvcState →
    List CharacterDescription × SvcState
  | [], _, acc, s => (acc, s)
  | ch :: rest, i, acc, s =>
    match callService s with
    | (some text, s2) =>
        generateDescsLoop allChars rest (i + 1)
          (acc ++ [parseCharacterDescription ch text i]) s2
    | (none, s2) =>
        (allChars.enum.map (fun q => createBasicCharacterDescription q.2 q.1), s2)

/-- `generateCharacterDescriptions` (`scene-analysis.ts`, lines 214-255);
the prompt only feeds the completion request, not the parsing. -/
def generateCharacterDescriptionsM (characters : List String) (s : SvcState) :
    List CharacterDescription × SvcState :=
  generateDescsLoop characters characters 0 [] s

/-- `createSceneBreakdown` (`scene-analysis.ts`, lines 264-291). -/
def createSceneBreakdownM (prompt : String) (sceneCount : Nat) (s : SvcState) :
    List SceneInfo × SvcState :=
  match callService s with
  | (some sceneText, s2) => (parseSceneBreakdown sceneText sceneCount, s2)
  | (none, s2) => (createBasicSceneBreakdown prompt sceneCount, s2)

/-- `EnhancedSceneAnalysisResult` (`types.ts`); the scene-character mapping
record is modelled as an association list in scene order. -/
structure EnhancedSceneAnalysisResult where
  isMultiScene : Bool
  sceneCount : Nat
  scenes : List SceneInfo
  complexity : Complexity
  recommendedApproach : String
  requiresCharacterConsistency : Bool
  characterDescriptions : List CharacterDescription
  sceneCharacterMappings : List (Nat × List String)
deriving DecidableEq, Repr

/-- The fixed minimal result of the catch block of `analyzePrompt`
(`scene-analysis.ts`, lines 97-106). -/
def minimalErrorResult : EnhancedSceneAnalysisResult :=
  { isMultiScene := false, sceneCount := 1, scenes := [],
    complexity := Complexity.simple, recommendedApproach := "single",
    requiresCharacterConsistency := false, characterDescriptions := [],
    sceneCharacterMappings := [] }

/-- `SceneAnalysisService.analyzePrompt` (`scene-analysis.ts`, lines
41-108): validation, the four analysis stages against the completion
service, and the catch block returning the minimal result — reached exactly
when validation fails, since every service failure is caught inside the
stages. -/
def analyzePrompt (svc : List (Option String)) (userPrompt : String) :
    EnhancedSceneAnalysisResult × SvcState :=
  let s0 : SvcState := { pending := svc, calls := 0 }
  let validation := validatePrompt userPrompt
  if validation.isValid = false then (minimalErrorResult, s0)
  else
    let sanitizedPrompt := validation.sanitizedPrompt.getD ""
    let (complexityAnalysis, s1) := detectComplexityM sanitizedPrompt s0
    let (characterAnalysis, s2) := identifyCharactersM sanitizedPrompt s1
    let isMultiScene := complexityAnalysis.isMultiScene
    let sceneCount := complexityAnalysis.sceneCount
    let (scenes, s3) :=
      if isMultiScene then createSceneBreakdownM sanitizedPrompt sceneCount s2
      else ([createSingleScene sanitizedPrompt], s2)
    let (characterDescriptions, s4) :=
      if characterAnalysis.requiresConsistency then
        generateCharacterDescriptionsM characterAnalysis.characters s3
      else ([], s3)
    let sceneCharacterMappings := mapCharactersToScenes scenes characterDescriptions
    ({ isMultiScene, sceneCount, scenes,
       complexity := complexityAnalysis.complexity,
       recommendedApproach := if isMultiScene then "multi-scene" else "single",
       requiresCharacterConsistency := characterAnalysis.requiresConsistency,
       characterDescriptions, sceneCharacterMappings }, s4)

/-! ## Concrete inputs used by counterexamples and witnesses -/

/-- A concrete long sequential prompt: it satisfies all three conditions of
the primary multi-scene gate (shared by several counterexamples below). -/
def cexPrompt : String :=
  "First the chef preps ingredients. Then after that he starts a fire and finally the fire department arrives. "
    ++ String.mk (List.replicate 200 'a')

/-- A long prompt on which the primary gate fires but the fallback heuristic
does not (only one occurrence of a split word). -/
def cexPromptA : String :=
  "then later " ++ String.mk (List.replicate 250 'a')

/-- A long prompt on which the fallback heuristic fires but the primary gate
does not (only one strong sequence keyword). -/
def cexPromptB : String :=
  "next a next b next c " ++ String.mk (List.replicate 250 'a')

/-- A long response line after the `SCENE:` marker. -/
def cexSceneText : String :=
  "SCENE: " ++ String.mk (List.replicate 301 'a')

/-- The concrete scene used by the C8 witness. -/
def sceneCapsWitnessScene : SceneInfo :=
  { sceneNumber := 1, description := "a visual shot", duration := 8, characters := [],
    visualElements := ["a visual shot"], audioElements := [] }

/-- The adjacency relation of the whitespace-normalization invariant. -/
def wsApart (a b : Char) : Prop :=
  ¬(jsIsSpace a = true ∧ jsIsSpace b = true)

/-! ## Theorems -/

/-- Counting with a fold (the `forEach` counter of the source) agrees with
`List.countP`. -/
theorem foldl_count_eq_countP {α : Type} (f : α → Bool) (l : List α) (n : Nat) :
    l.foldl (fun acc a => if f a then acc + 1 else acc) n = n + l.countP f := by
  induction l generalizing n with
  | nil => simp
  | cons a t ih =>
    simp only [List.foldl_cons, List.countP_cons, ih]
    by_cases h : f a = true <;> simp [h] <;> omega

/-- C1: the primary multi-scene gate holds iff (a) at least two of the fixed
strong sequence keywords occur in the lowercased prompt, (b) the (sanitized)
prompt is longer than 250 characters, and (c) the lowercased prompt contains
"then " together with one of "after"/"later"/"finally". -/
theorem multiScene_gate_iff (prompt analysis : String) :
    detectMultiSceneIndicators prompt analysis = true ↔
      (2 ≤ strongSequenceKeywords.countP (fun k => jsIncludes (jsToLower prompt) k) ∧
       250 < prompt.length ∧
       (jsIncludes (jsToLower prompt) "then " = true ∧
        (jsIncludes (jsToLower prompt) "after" = true ∨
         jsIncludes (jsToLower prompt) "later" = true ∨
         jsIncludes (jsToLower prompt) "finally" = true))) := by
  unfold detectMultiSceneIndicators
  simp only [foldl_count_eq_countP, Nat.zero_add, Bool.and_eq_true,
    Bool.or_eq_true, decide_eq_true_eq]
  tauto

/-- C1 witness: the gate fires on the concrete sequential prompt. -/
theorem multiScene_gate_iff_witness :
    detectMultiSceneIndicators cexPrompt "" = true :=
  (multiScene_gate_iff cexPrompt "").mpr (by decide)

/-- C3 counterexample: on a multi-scene prompt with completion response
"0 scenes", the classifier returns `sceneCount = 0`, violating
`1 ≤ sceneCount`. -/
theorem sceneCount_zero_cex :
    (detectComplexityPure cexPrompt "0 scenes").isMultiScene = true ∧
    (detectComplexityPure cexPrompt "0 scenes").sceneCount = 0 := by
  decide

/-- C3 (amended): `sceneCount ≤ 5` always; single-scene results have
`sceneCount = 1`; a multi-scene count coming from an explicit
"number scene" mention in the response is `min n 5` (possibly 0), and
otherwise the sequence-indicator count is floored at 2 and capped at 5. -/
theorem sceneCount_bounds (prompt analysis : String) :
    (detectComplexityPure prompt analysis).sceneCount ≤ 5 ∧
    ((detectComplexityPure prompt analysis).isMultiScene = false →
      (detectComplexityPure prompt analysis).sceneCount = 1) ∧
    ((detectComplexityPure prompt analysis).isMultiScene = true →
      (∀ n, matchNumberScene analysis.data = some n →
        (detectComplexityPure prompt analysis).sceneCount = min n 5) ∧
      (matchNumberScene analysis.data = none →
        2 ≤ (detectComplexityPure prompt analysis).sceneCount ∧
        (detectComplexityPure prompt analysis).sceneCount ≤ 5)) := by
  unfold detectComplexityPure estimateSceneCount
  by_cases hms : detectMultiSceneIndicators prompt analysis = true
  · simp only [hms, if_true]
    cases hmn : matchNumberScene analysis.data with
    | none => simp only [hmn]; refine ⟨by omega, by simp, fun _ => ⟨by simp, fun _ => by omega⟩⟩
    | some n => simp only [hmn]; exact ⟨by omega, by simp, fun _ => ⟨fun m hm => by
        simp only [Option.some.injEq] at hm; omega, by simp⟩⟩
  · simp only [Bool.not_eq_true] at hms
    simp [hms]

/-- C3 witness: the amended count rule evaluated on the concrete
counterexample input. -/
theorem sceneCount_bounds_witness :
    (detectComplexityPure cexPrompt "0 scenes").sceneCount = min 0 5 :=
  ((sceneCount_bounds cexPrompt "0 scenes").2.2 (by decide)).1 0 (by decide)

/-- C6 counterexample: with completion response "simple", a multi-scene
prompt is labelled `simple`, so the label does not track
multi-scene-ness on the primary path. -/
theorem complexity_label_cex :
    (detectComplexityPure cexPrompt "simple").isMultiScene = true ∧
    (detectComplexityPure cexPrompt "simple").complexity = Complexity.simple := by
  decide

/-- C6 (amended): on the fallback path the complexity label is `complex`
exactly for multi-scene results with more than 2 scenes, `moderate` exactly
for the remaining multi-scene results, and `simple` exactly for single-scene
results. -/
theorem fallback_complexity_label (prompt : String) :
    ((fallbackComplexityAnalysis prompt).complexity = Complexity.complex ↔
      (fallbackComplexityAnalysis prompt).isMultiScene = true ∧
        2 < (fallbackComplexityAnalysis prompt).sceneCount) ∧
    ((fallbackComplexityAnalysis prompt).complexity = Complexity.moderate ↔
      (fallbackComplexityAnalysis prompt).isMultiScene = true ∧
        (fallbackComplexityAnalysis prompt).sceneCount ≤ 2) ∧
    ((fallbackComplexityAnalysis prompt).complexity = Complexity.simple ↔
      (fallbackComplexityAnalysis prompt).isMultiScene = false) := by
  unfold fallbackComplexityAnalysis
  by_cases hb : (regexTestB fallbackSeqAlts prompt &&
      decide (250 < prompt.length) &&
      decide (3 < splitAltCount seqSplitWords (jsToLower prompt).data + 1)) = true
  · simp only [hb, if_true]
    by_cases hc : 2 < min (splitAltCount seqSplitWords (prompt.data.map Char.toLower) + 1) 3
    · have hc2 : 2 < splitAltCount seqSplitWords (prompt.data.map Char.toLower) + 1 :=
        (lt_min_iff.mp hc).1
      simp [hc] <;> omega
    · have hc2 : min (splitAltCount seqSplitWords (prompt.data.map Char.toLower) + 1) 3 ≤ 2 :=
        Nat.not_lt.mp hc
      simp [hc, hc2] <;> omega
  · simp only [Bool.not_eq_true] at hb
    simp [hb]

/-- C6 witness: the amended label rule evaluated at a concrete prompt. -/
theorem fallback_complexity_label_witness :
    (fallbackComplexityAnalysis "hello").complexity = Complexity.simple :=
  (fallback_complexity_label "hello").2.2.mpr (by decide)

/-- C5 counterexample: the primary gate and the fallback heuristic disagree
in both directions on concrete long prompts. -/
theorem gate_fallback_disagree_cex :
    (detectMultiSceneIndicators cexPromptA "" = true ∧
      (fallbackComplexityAnalysis cexPromptA).isMultiScene = false) ∧
    (detectMultiSceneIndicators cexPromptB "" = false ∧
      (fallbackComplexityAnalysis cexPromptB).isMultiScene = true) := by
  decide

/-- C5 (amended): the two gates share only the length condition: on prompts
of at most 250 characters both paths classify single-scene (and hence
agree); on longer prompts they can disagree in both directions. -/
theorem gate_fallback_agree_short (prompt analysis : String)
    (h : prompt.length ≤ 250) :
    detectMultiSceneIndicators prompt analysis = false ∧
    (fallbackComplexityAnalysis prompt).isMultiScene = false := by
  have hlt : ¬(250 < prompt.length) := by omega
  constructor
  · unfold detectMultiSceneIndicators
    simp [hlt]
  · unfold fallbackComplexityAnalysis
    simp [hlt]

/-- C5 witness: a concrete short prompt on which both gates are off. -/
theorem gate_fallback_agree_short_witness :
    detectMultiSceneIndicators "a short prompt" "" = false ∧
    (fallbackComplexityAnalysis "a short prompt").isMultiScene = false :=
  gate_fallback_agree_short "a short prompt" "" (by decide)

/-- C7 counterexample: on the primary path, the completion response
"person" makes the Character Identifier return the non-empty character list
["person"] together with `requiresConsistency = true` (the prompt contains
the indicator word "person"), contradicting the claimed `false`. -/
theorem person_dog_primary_cex :
    identifyCharactersPure "A person walking their dog" "person" =
      { requiresConsistency := true, characters := ["person"] } := by
  decide

/-- C7 (amended): for the prompt "A person walking their dog" the fallback
Character Identifier returns `characters = ["person"]` (dog excluded) with
`requiresConsistency = false`, since its indicator test is restricted to
pronouns and then/next/after; the primary path, however, sees the
consistency indicator "person" in the prompt, so there it marks any
non-empty character list as requiring consistency. -/
theorem person_dog_fallback :
    fallbackCharacterAnalysis "A person walking their dog" =
      { requiresConsistency := false, characters := ["person"] } ∧
    needsCharacterConsistency "A person walking their dog" = true := by
  decide

/-- `extractElements` never returns more than 3 elements. -/
theorem extractElements_length_le (text : String) (keywords : List String) :
    (extractElements text keywords).length ≤ 3 := by
  unfold extractElements
  rw [List.length_take]
  exact min_le_left _ _

/-- The padding loop adds exactly its fuel count of scenes. -/
theorem padScenesF_length (k : Nat) (scenes : List SceneInfo) :
    (padScenesF k scenes).length = scenes.length + k := by
  induction k generalizing scenes with
  | zero => simp [padScenesF]
  | succ k ih =>
    rw [padScenesF, ih]
    simp
    omega

/-- A member of the padded list is an original member or a placeholder with
a bounded scene number. -/
theorem padScenesF_mem (k : Nat) (scenes : List SceneInfo) (s : SceneInfo)
    (hs : s ∈ padScenesF k scenes) :
    s ∈ scenes ∨ ∃ m, s = placeholderScene m ∧ m ≤ scenes.length + k := by
  induction k generalizing scenes with
  | zero => exact Or.inl hs
  | succ k ih =>
    rw [padScenesF] at hs
    rcases ih _ hs with h | ⟨m, rfl, hm⟩
    · rcases List.mem_append.mp h with h1 | h2
      · exact Or.inl h1
      · right
        refine ⟨scenes.length + 1, ?_, by omega⟩
        simpa using h2
    · right
      refine ⟨m, rfl, ?_⟩
      simp only [List.length_append, List.length_cons, List.length_nil] at hm
      omega

/-- C8 counterexample: a scene produced by the SCENE:-line parsing path can
have a description longer than 300 characters (the cap is only applied on
the section-split path). -/
theorem scene_desc_cap_cex :
    ∃ s ∈ parseSceneBreakdown cexSceneText 1, 300 < s.description.length := by
  decide

/-- C8 (amended): every scene produced by `parseSceneBreakdown` (for a
requested count within the classifier cap of 5) has at most 3 visual and 3
audio elements; the 300-character description cap applies on the
section-split path (taken when no SCENE:-prefixed line is found), not on
the SCENE:-line path. -/
theorem breakdown_scene_caps (t : String) (n : Nat) (hn : n ≤ 5)
    (s : SceneInfo) (hs : s ∈ parseSceneBreakdown t n) :
    s.visualElements.length ≤ 3 ∧ s.audioElements.length ≤ 3 ∧
    (sceneLines t = [] → s.description.length ≤ 300) := by
  unfold parseSceneBreakdown at hs
  dsimp only at hs
  by_cases hl : (sceneLines t).length = 0
  · rw [if_pos hl] at hs
    rcases padScenesF_mem _ _ _ hs with hbase | ⟨m, rfl, hm⟩
    · rcases List.mem_filterMap.mp hbase with ⟨p, hp, hfp⟩
      unfold sectionSceneOpt at hfp
      dsimp only at hfp
      split_ifs at hfp with hlen
      cases hfp
      refine ⟨extractElements_length_le _ _, extractElements_length_le _ _, fun _ => ?_⟩
      show (String.mk _).length ≤ 300
      rw [String.length, List.length_take]
      exact min_le_left _ _
    · have hA : (((sceneSections t).take n).enum.filterMap sectionSceneOpt).length ≤ n := by
        refine le_trans (List.length_filterMap_le _ _) ?_
        rw [List.enum_length, List.length_take]
        exact min_le_left _ _
      have hm5 : m ≤ 5 := by omega
      refine ⟨?_, ?_, fun _ => ?_⟩
      · simp [placeholderScene]
      · simp [placeholderScene]
      · interval_cases m <;> decide
  · rw [if_neg hl] at hs
    rcases padScenesF_mem _ _ _ hs with hbase | ⟨m, rfl, hm⟩
    · rcases List.mem_map.mp hbase with ⟨p, hp, rfl⟩
      exact ⟨extractElements_length_le _ _, extractElements_length_le _ _,
        fun h => absurd (by simp [h]) hl⟩
    · have hA : (((sceneLines t).take n).enum.map sceneLineScene).length ≤ n := by
        rw [List.length_map, List.enum_length, List.length_take]
        exact min_le_left _ _
      have hm5 : m ≤ 5 := by omega
      refine ⟨?_, ?_, fun _ => ?_⟩
      · simp [placeholderScene]
      · simp [placeholderScene]
      · interval_cases m <;> decide

/-- C8 witness: the caps evaluated on a concrete parsed scene. -/
theorem breakdown_scene_caps_witness :
    sceneCapsWitnessScene.visualElements.length ≤ 3 ∧
    sceneCapsWitnessScene.audioElements.length ≤ 3 ∧
    (sceneLines "SCENE: a visual shot" = [] →
      sceneCapsWitnessScene.description.length ≤ 300) :=
  breakdown_scene_caps "SCENE: a visual shot" 1 (by decide)
    sceneCapsWitnessScene (by decide)

/-! ### Sanitizer idempotence (C9) -/

/-- `trimL` is the from-the-right drop composed with the from-the-left
drop. -/
theorem trimL_eq_rdropWhile (l : List Char) :
    trimL l = List.rdropWhile jsIsSpace (l.dropWhile jsIsSpace) :=
  rfl

/-- A from-the-left-clean list stays clean on prefixes. -/
theorem dropWhile_eq_self_of_prefix {p : Char → Bool} {y x : List Char}
    (hpre : y <+: x) (hx : x.dropWhile p = x) : y.dropWhile p = y := by
  obtain ⟨t, rfl⟩ := hpre
  cases y with
  | nil => rfl
  | cons a y' =>
    rw [List.cons_append, List.dropWhile_cons] at hx
    by_cases hp : p a = true
    · rw [if_pos hp] at hx
      have h1 := (List.dropWhile_suffix p (l := y' ++ t)).length_le
      have h2 := congrArg List.length hx
      simp only [List.length_cons, List.length_append] at h1 h2
      omega
    · rw [List.dropWhile_cons, if_neg hp]

/-- Trimming is idempotent. -/
theorem trimL_idem (l : List Char) : trimL (trimL l) = trimL l := by
  have h1 : (trimL l).dropWhile jsIsSpace = trimL l := by
    apply dropWhile_eq_self_of_prefix (x := l.dropWhile jsIsSpace)
    · exact List.rdropWhile_prefix _ _
    · exact List.dropWhile_idempotent _ _
  show List.rdropWhile jsIsSpace ((trimL l).dropWhile jsIsSpace) = trimL l
  rw [h1]
  exact List.rdropWhile_idempotent _ _

/-- The trimmed list is an infix of the original. -/
theorem trimL_infix_self (l : List Char) : trimL l <:+: l :=
  ((List.rdropWhile_prefix jsIsSpace (l.dropWhile jsIsSpace)).isInfix).trans
    ((List.dropWhile_suffix jsIsSpace).isInfix)

/-- Trimming does not add characters. -/
theorem mem_of_mem_trimL {c : Char} {l : List Char} (h : c ∈ trimL l) : c ∈ l :=
  (trimL_infix_self l).subset h

/-- `collapseWs` output: all whitespace is a single space character, no two
adjacent whitespace characters, and `skipWsTail` output starts with a
non-whitespace character. -/
theorem collapseWs_props (l : List Char) :
    ((∀ c ∈ collapseWs l, jsIsSpace c = true → c = ' ') ∧
      (collapseWs l).Chain' wsApart) ∧
    ((∀ c ∈ skipWsTail l, jsIsSpace c = true → c = ' ') ∧
      (skipWsTail l).Chain' wsApart ∧
      (∀ c, (skipWsTail l).head? = some c → jsIsSpace c = false)) := by
  induction l with
  | nil => simp [collapseWs, skipWsTail]
  | cons c rest ih =>
    obtain ⟨⟨hCmem, hCchain⟩, hSmem, hSchain, hShead⟩ := ih
    by_cases hws : jsIsSpace c = true
    · rw [collapseWs, skipWsTail, if_pos hws, if_pos hws]
      refine ⟨⟨?_, ?_⟩, hSmem, hSchain, hShead⟩
      · intro d hd _
        rcases List.mem_cons.mp hd with rfl | hd'
        · rfl
        · exact hSmem d hd' (by assumption)
      · rw [List.chain'_cons']
        refine ⟨fun b hb => ?_, hSchain⟩
        have := hShead b (by simpa using hb)
        simp [wsApart, this]
    · rw [collapseWs, skipWsTail, if_neg hws, if_neg hws]
      have hchain : (c :: collapseWs rest).Chain' wsApart := by
        rw [List.chain'_cons']
        exact ⟨fun b _ => by simp [wsApart, hws], hCchain⟩
      have hmem : ∀ d ∈ c :: collapseWs rest, jsIsSpace d = true → d = ' ' := by
        intro d hd hdws
        rcases List.mem_cons.mp hd with rfl | hd'
        · exact absurd hdws hws
        · exact hCmem d hd' hdws
      exact ⟨⟨hmem, hchain⟩, hmem, hchain, fun d hd => by
        simp only [List.head?_cons, Option.some.injEq] at hd
        subst hd
        simpa using hws⟩

/-- `collapseWs` does not add characters other than spaces. -/
theorem mem_collapseWs (l : List Char) :
    (∀ c ∈ collapseWs l, c ∈ l ∨ c = ' ') ∧
    (∀ c ∈ skipWsTail l, c ∈ l ∨ c = ' ') := by
  induction l with
  | nil => simp [collapseWs, skipWsTail]
  | cons c rest ih =>
    obtain ⟨ihC, ihS⟩ := ih
    by_cases hws : jsIsSpace c = true
    · rw [collapseWs, skipWsTail, if_pos hws, if_pos hws]
      constructor
      · intro d hd
        rcases List.mem_cons.mp hd with rfl | hd'
        · exact Or.inr rfl
        · rcases ihS d hd' with h | h
          · exact Or.inl (List.mem_cons_of_mem _ h)
          · exact Or.inr h
      · intro d hd
        rcases ihS d hd with h | h
        · exact Or.inl (List.mem_cons_of_mem _ h)
        · exact Or.inr h
    · rw [collapseWs, skipWsTail, if_neg hws, if_neg hws]
      have : ∀ d ∈ c :: collapseWs rest, d ∈ c :: rest ∨ d = ' ' := by
        intro d hd
        rcases List.mem_cons.mp hd with rfl | hd'
        · exact Or.inl (List.mem_cons_self _ _)
        · rcases ihC d hd' with h | h
          · exact Or.inl (List.mem_cons_of_mem _ h)
          · exact Or.inr h
      exact ⟨this, this⟩

/-- A list already in normalized-whitespace form is fixed by
`collapseWs`. -/
theorem collapseWs_eq_self (l : List Char) :
    ((∀ c ∈ l, jsIsSpace c = true → c = ' ') → l.Chain' wsApart →
      collapseWs l = l) ∧
    ((∀ c ∈ l, jsIsSpace c = true → c = ' ') → l.Chain' wsApart →
      (∀ c, l.head? = some c → jsIsSpace c = false) → skipWsTail l = l) := by
  induction l with
  | nil => simp [collapseWs, skipWsTail]
  | cons c rest ih =>
    obtain ⟨ihC, ihS⟩ := ih
    constructor
    · intro hmem hchain
      by_cases hws : jsIsSpace c = true
      · rw [collapseWs, if_pos hws]
        have hc : c = ' ' := hmem c (List.mem_cons_self _ _) hws
        have hrest : skipWsTail rest = rest := by
          apply ihS
          · exact fun d hd => hmem d (List.mem_cons_of_mem _ hd)
          · exact hchain.tail
          · intro d hd
            have := (List.chain'_cons'.mp hchain).1 d (by simpa using hd)
            by_contra hd2
            simp only [Bool.not_eq_false] at hd2
            exact this ⟨hws, hd2⟩
        rw [hrest, hc]
      · rw [collapseWs, if_neg hws]
        rw [ihC (fun d hd => hmem d (List.mem_cons_of_mem _ hd)) hchain.tail]
    · intro hmem hchain hhead
      have hws : jsIsSpace c = false := hhead c rfl
      rw [skipWsTail, if_neg (by simp [hws])]
      rw [ihC (fun d hd => hmem d (List.mem_cons_of_mem _ hd)) hchain.tail]

/-- A list without `<` is fixed by tag removal (for any fuel). -/
theorem removeTagsF_eq_self (fuel : Nat) (l : List Char)
    (h : ∀ c ∈ l, c ≠ '<') : removeTagsF fuel l = l := by
  induction fuel generalizing l with
  | zero => rfl
  | succ fuel ih =>
    cases l with
    | nil => rfl
    | cons c rest =>
      rw [removeTagsF, if_neg (h c (List.mem_cons_self _ _))]
      rw [ih rest (fun d hd => h d (List.mem_cons_of_mem _ hd))]

/-- A list without `<` is fixed by script removal (for any fuel). -/
theorem removeScriptsF_eq_self (fuel : Nat) (l : List Char)
    (h : ∀ c ∈ l, c ≠ '<') : removeScriptsF fuel l = l := by
  induction fuel generalizing l with
  | zero => rfl
  | succ fuel ih =>
    cases l with
    | nil => rfl
    | cons c rest =>
      rw [removeScriptsF, if_neg (h c (List.mem_cons_self _ _))]
      rw [ih rest (fun d hd => h d (List.mem_cons_of_mem _ hd))]

/-- Characters of a sanitized list are whitelisted (or spaces) and in
normalized-whitespace form; shared by both sanitizer variants. -/
theorem sanitized_chars {v : List Char} {c : Char}
    (h : c ∈ trimL (collapseWs v)) : c ∈ v ∨ c = ' ' :=
  (mem_collapseWs v).1 c (mem_of_mem_trimL h)

/-- The output of `trimL ∘ collapseWs` is fixed by `collapseWs`. -/
theorem collapseWs_trim_fixed (v : List Char) :
    collapseWs (trimL (collapseWs v)) = trimL (collapseWs v) := by
  apply (collapseWs_eq_self _).1
  · intro c hc hws
    exact (collapseWs_props v).1.1 c (mem_of_mem_trimL hc) hws
  · exact List.Chain'.infix ((collapseWs_props v).1.2) (trimL_infix_self _)

/-- C9: both sanitizer variants are idempotent, and both map the empty
string to the empty string. -/
theorem sanitize_idempotent (x : String) :
    sanitizeTextInput (sanitizeTextInput x) = sanitizeTextInput x ∧
    sanitizePromptForVideo (sanitizePromptForVideo x) = sanitizePromptForVideo x ∧
    sanitizeTextInput "" = "" ∧ sanitizePromptForVideo "" = "" := by
  refine ⟨?_, ?_, by decide, by decide⟩
  · set v := (removeTags (trimL x.data)).filter notAngleChar with hv
    set y := trimL (collapseWs v) with hy
    have hchars : ∀ c ∈ y, notAngleChar c = true := by
      intro c hc
      rcases sanitized_chars (hy ▸ hc) with h | rfl
      · exact (List.mem_filter.mp h).2
      · decide
    have s1 : trimL y = y := hy ▸ trimL_idem _
    have s2 : removeTags y = y := by
      apply removeTagsF_eq_self
      intro c hc
      have := hchars c hc
      simp only [notAngleChar, Bool.not_eq_true', Bool.or_eq_false_iff,
        decide_eq_false_iff_not] at this
      exact this.1
    have s3 : y.filter notAngleChar = y := List.filter_eq_self.mpr hchars
    have s4 : collapseWs y = y := hy ▸ collapseWs_trim_fixed v
    show String.mk (trimL (collapseWs ((removeTags (trimL y)).filter notAngleChar))) =
      String.mk y
    rw [s1, s2, s3, s4, s1]
  · set v := ((removeScripts (removeTags (trimL x.data))).filter notAngleChar).filter
      videoAllowedChar with hv
    set y := trimL (collapseWs v) with hy
    have hchars : ∀ c ∈ y, notAngleChar c = true ∧ videoAllowedChar c = true := by
      intro c hc
      rcases sanitized_chars (hy ▸ hc) with h | rfl
      · exact ⟨(List.mem_filter.mp (List.mem_filter.mp h).1).2, (List.mem_filter.mp h).2⟩
      · exact ⟨by decide, by decide⟩
    have s1 : trimL y = y := hy ▸ trimL_idem _
    have hlt : ∀ c ∈ y, c ≠ '<' := by
      intro c hc
      have := (hchars c hc).1
      simp only [notAngleChar, Bool.not_eq_true', Bool.or_eq_false_iff,
        decide_eq_false_iff_not] at this
      exact this.1
    have s2 : removeTags y = y := removeTagsF_eq_self _ _ hlt
    have s2b : removeScripts y = y := removeScriptsF_eq_self _ _ hlt
    have s3 : y.filter notAngleChar = y :=
      List.filter_eq_self.mpr (fun c hc => (hchars c hc).1)
    have s3b : y.filter videoAllowedChar = y :=
      List.filter_eq_self.mpr (fun c hc => (hchars c hc).2)
    have s4 : collapseWs y = y := hy ▸ collapseWs_trim_fixed v
    show String.mk (trimL (collapseWs
      (((removeScripts (removeTags (trimL y))).filter notAngleChar).filter
        videoAllowedChar))) = String.mk y
    rw [s1, s2, s2b, s3, s3b, s4, s1]

/-! ### The analysis pipeline (C2, C4, C10) -/

/-- C10: whenever validation fails, `analyzePrompt` resolves with the fixed
minimal result instead of surfacing the validation error, making no
outbound call. -/
theorem invalid_prompt_minimal_result (p : String) (svc : List (Option String))
    (h : (validatePrompt p).isValid = false) :
    (analyzePrompt svc p).1 = minimalErrorResult ∧
    (analyzePrompt svc p).2.calls = 0 := by
  unfold analyzePrompt
  rw [if_pos h]
  exact ⟨rfl, rfl⟩

/-- C10 witness: the empty prompt fails validation and yields the minimal
result. -/
theorem invalid_prompt_minimal_result_witness :
    (analyzePrompt [] "").1 = minimalErrorResult ∧
    (analyzePrompt [] "").2.calls = 0 :=
  invalid_prompt_minimal_result "" [] (by decide)

/-- With no pending responses, every outbound call fails. -/
theorem callService_fail (n : Nat) :
    callService { pending := [], calls := n } = (none, { pending := [], calls := n + 1 }) :=
  rfl

/-- A non-empty character list in the all-fail state produces the basic
descriptions after exactly one attempted call. -/
theorem generateDescs_fail (chars : List String) (hne : chars ≠ []) (n : Nat) :
    generateCharacterDescriptionsM chars { pending := [], calls := n } =
      (chars.enum.map (fun q => createBasicCharacterDescription q.2 q.1),
       { pending := [], calls := n + 1 }) := by
  cases chars with
  | nil => exact absurd rfl hne
  | cons c cs => rfl

/-- When the fallback character analysis requires consistency, it found at
least one character. -/
theorem fallbackChars_nonempty (p : String)
    (h : (fallbackCharacterAnalysis p).requiresConsistency = true) :
    (fallbackCharacterAnalysis p).characters ≠ [] := by
  unfold fallbackCharacterAnalysis at h ⊢
  by_cases hgate : (animalWords.any (fun animal => jsIncludes (jsToLower p) animal) &&
      !(humanCharacterWords.any fun human => jsIncludes (jsToLower p) human)) = true
  · rw [if_pos hgate] at h
    exact absurd h (by simp)
  · rw [if_neg hgate] at h ⊢
    dsimp only at h ⊢
    rw [Bool.and_eq_true] at h
    have h1 : 0 < (humanCharacterWords.filter
        (fun word => jsIncludes (jsToLower p) word)).length :=
      of_decide_eq_true h.1
    cases hc : humanCharacterWords.filter (fun word => jsIncludes (jsToLower p) word) with
    | nil => rw [hc] at h1; simp at h1
    | cons a t => simp

/-- C2: for every valid prompt, if every outbound completion call fails,
each stage returns exactly its heuristic fallback output, the pipeline
resolves with a fully-formed result, and each reached call site attempts
exactly one remote call (2 unconditional stages plus the breakdown stage
when multi-scene and one description call when consistency is required) —
so a failed call triggers one fallback and never a retry. -/
theorem all_fail_fallback (p sp : String)
    (hvalid : (validatePrompt p).isValid = true)
    (hs : (validatePrompt p).sanitizedPrompt = some sp) :
    (analyzePrompt [] p).1.isMultiScene = (fallbackComplexityAnalysis sp).isMultiScene ∧
    (analyzePrompt [] p).1.sceneCount = (fallbackComplexityAnalysis sp).sceneCount ∧
    (analyzePrompt [] p).1.complexity = (fallbackComplexityAnalysis sp).complexity ∧
    (analyzePrompt [] p).1.requiresCharacterConsistency =
      (fallbackCharacterAnalysis sp).requiresConsistency ∧
    (analyzePrompt [] p).1.scenes =
      (if (fallbackComplexityAnalysis sp).isMultiScene then
        createBasicSceneBreakdown sp (fallbackComplexityAnalysis sp).sceneCount
      else [createSingleScene sp]) ∧
    (analyzePrompt [] p).1.characterDescriptions =
      (if (fallbackCharacterAnalysis sp).requiresConsistency then
        (fallbackCharacterAnalysis sp).characters.enum.map
          (fun q => createBasicCharacterDescription q.2 q.1)
      else []) ∧
    (analyzePrompt [] p).2.calls =
      2 + (if (fallbackComplexityAnalysis sp).isMultiScene then 1 else 0) +
        (if (fallbackCharacterAnalysis sp).requiresConsistency then 1 else 0) := by
  unfold analyzePrompt
  rw [if_neg (by simp [hvalid])]
  dsimp only
  rw [hs]
  dsimp only [Option.getD_some, detectComplexityM, identifyCharactersM,
    createSceneBreakdownM, callService]
  by_cases hms : (fallbackComplexityAnalysis sp).isMultiScene = true
  · by_cases hrc : (fallbackCharacterAnalysis sp).requiresConsistency = true
    · refine ⟨?_, ?_, ?_, ?_, ?_, ?_, ?_⟩ <;>
        simp [hms, hrc, generateDescs_fail _ (fallbackChars_nonempty _ hrc)]
    · rw [Bool.not_eq_true] at hrc
      refine ⟨?_, ?_, ?_, ?_, ?_, ?_, ?_⟩ <;> simp [hms, hrc]
  · rw [Bool.not_eq_true] at hms
    by_cases hrc : (fallbackCharacterAnalysis sp).requiresConsistency = true
    · refine ⟨?_, ?_, ?_, ?_, ?_, ?_, ?_⟩ <;>
        simp [hms, hrc, generateDescs_fail _ (fallbackChars_nonempty _ hrc)]
    · rw [Bool.not_eq_true] at hrc
      refine ⟨?_, ?_, ?_, ?_, ?_, ?_, ?_⟩ <;> simp [hms, hrc]

/-- C2 witness: the call count evaluated on a concrete valid prompt with an
all-failing service. -/
theorem all_fail_fallback_witness :
    (analyzePrompt [] "A person walks and then he runs").2.calls =
      2 + (if (fallbackComplexityAnalysis "A person walks and then he runs").isMultiScene
            then 1 else 0) +
        (if (fallbackCharacterAnalysis
              "A person walks and then he runs").requiresConsistency then 1 else 0) :=
  (all_fail_fallback "A person walks and then he runs" "A person walks and then he runs"
    (by decide) (by decide)).2.2.2.2.2.2

/-- Every mapping value only references ids of the given descriptions. -/
theorem mapCharactersToScenes_sound (scenes : List SceneInfo)
    (descs : List CharacterDescription) :
    ∀ pair ∈ mapCharactersToScenes scenes descs, ∀ cid ∈ pair.2,
      ∃ cd ∈ descs, cd.characterId = cid := by
  intro pair hp cid hcid
  rcases List.mem_map.mp hp with ⟨sc, _, rfl⟩
  rcases List.mem_map.mp hcid with ⟨cd, hcd, rfl⟩
  exact ⟨cd, hcd, rfl⟩

/-- `parseSceneBreakdown` returns exactly the requested number of scenes. -/
theorem parseSceneBreakdown_length (t : String) (n : Nat) :
    (parseSceneBreakdown t n).length = n := by
  unfold parseSceneBreakdown
  dsimp only
  by_cases hl : (sceneLines t).length = 0
  · rw [if_pos hl, padScenesF_length]
    have hA : (((sceneSections t).take n).enum.filterMap sectionSceneOpt).length ≤ n := by
      refine le_trans (List.length_filterMap_le _ _) ?_
      rw [List.enum_length, List.length_take]
      exact min_le_left _ _
    omega
  · rw [if_neg hl, padScenesF_length]
    have hA : (((sceneLines t).take n).enum.map sceneLineScene).length ≤ n := by
      rw [List.length_map, List.enum_length, List.length_take]
      exact min_le_left _ _
    omega

/-- `createBasicSceneBreakdown` returns exactly the requested number of
scenes. -/
theorem createBasicSceneBreakdown_length (p : String) (n : Nat) :
    (createBasicSceneBreakdown p n).length = n := by
  unfold createBasicSceneBreakdown
  rw [List.length_map, List.length_range]

/-- The breakdown stage returns exactly the requested number of scenes for
any service behaviour. -/
theorem createSceneBreakdownM_length (p : String) (n : Nat) (s : SvcState) :
    ((createSceneBreakdownM p n s).1).length = n := by
  unfold createSceneBreakdownM
  generalize callService s = c
  obtain ⟨r, s2⟩ := c
  cases r with
  | some t => exact parseSceneBreakdown_length t n
  | none => exact createBasicSceneBreakdown_length p n

/-- A single-scene primary classification carries `sceneCount = 1`. -/
theorem detectComplexityPure_single (p a : String)
    (h : (detectComplexityPure p a).isMultiScene = false) :
    (detectComplexityPure p a).sceneCount = 1 := by
  unfold detectComplexityPure at h ⊢
  dsimp only at h ⊢
  simp [h]

/-- A single-scene fallback classification carries `sceneCount = 1`. -/
theorem fallbackComplexity_single (p : String)
    (h : (fallbackComplexityAnalysis p).isMultiScene = false) :
    (fallbackComplexityAnalysis p).sceneCount = 1 := by
  unfold fallbackComplexityAnalysis at h ⊢
  dsimp only at h ⊢
  simp [h]

/-- A single-scene complexity result always carries `sceneCount = 1`, for
any service behaviour. -/
theorem detectComplexityM_single (p : String) (s : SvcState)
    (h : ((detectComplexityM p s).1).isMultiScene = false) :
    ((detectComplexityM p s).1).sceneCount = 1 := by
  unfold detectComplexityM at h ⊢
  generalize hc : callService s = c at h ⊢
  obtain ⟨r, s2⟩ := c
  cases r with
  | some a => exact detectComplexityPure_single p a h
  | none => exact fallbackComplexity_single p h

/-- C4 counterexample: on the error path (here: an invalid empty prompt)
the result has `sceneCount = 1` with an empty scene list, so the length
invariant fails there. -/
theorem invariant_error_path_cex :
    (analyzePrompt [] "").1.sceneCount = 1 ∧
    (analyzePrompt [] "").1.scenes.length = 0 := by
  decide

/-- C4 (amended): for every input and every service behaviour, all mapped
character ids reference an entry of `characterDescriptions`; and on every
run that passes validation, `sceneCount = scenes.length`.  (The fixed
minimal result of the error path has `sceneCount = 1` with no scenes.) -/
theorem result_invariants (p : String) (svc : List (Option String)) :
    (∀ pair ∈ (analyzePrompt svc p).1.sceneCharacterMappings, ∀ cid ∈ pair.2,
      ∃ cd ∈ (analyzePrompt svc p).1.characterDescriptions, cd.characterId = cid) ∧
    ((validatePrompt p).isValid = true →
      (analyzePrompt svc p).1.sceneCount = (analyzePrompt svc p).1.scenes.length) := by
  unfold analyzePrompt
  by_cases hvalid : (validatePrompt p).isValid = false
  · rw [if_pos hvalid]
    constructor
    · intro pair hp
      simp [minimalErrorResult] at hp
    · intro h
      rw [h] at hvalid
      cases hvalid
  · rw [if_neg hvalid]
    dsimp only
    rcases hD : detectComplexityM ((validatePrompt p).sanitizedPrompt.getD "")
        { pending := svc, calls := 0 } with ⟨ca, s1⟩
    dsimp only
    rcases hI : identifyCharactersM ((validatePrompt p).sanitizedPrompt.getD "") s1
      with ⟨chA, s2⟩
    dsimp only
    by_cases hms : ca.isMultiScene = true
    · rw [if_pos hms]
      rcases hB : createSceneBreakdownM ((validatePrompt p).sanitizedPrompt.getD "")
          ca.sceneCount s2 with ⟨scs, s3⟩
      dsimp only
      have hlen := createSceneBreakdownM_length ((validatePrompt p).sanitizedPrompt.getD "")
        ca.sceneCount s2
      rw [hB] at hlen
      by_cases hrc : chA.requiresConsistency = true
      · rw [if_pos hrc]
        rcases hG : generateCharacterDescriptionsM chA.characters s3 with ⟨ds, s4⟩
        dsimp only
        exact ⟨mapCharactersToScenes_sound _ _, fun _ => hlen.symm⟩
      · rw [if_neg hrc]
        exact ⟨mapCharactersToScenes_sound _ _, fun _ => hlen.symm⟩
    · rw [if_neg hms]
      have hone : ca.sceneCount = 1 := by
        have h0 := detectComplexityM_single ((validatePrompt p).sanitizedPrompt.getD "")
          { pending := svc, calls := 0 }
        rw [hD] at h0
        exact h0 (by simpa using hms)
      by_cases hrc : chA.requiresConsistency = true
      · rw [if_pos hrc]
        rcases hG : generateCharacterDescriptionsM chA.characters s2 with ⟨ds, s4⟩
        dsimp only
        exact ⟨mapCharactersToScenes_sound _ _, fun _ => by simp [hone, createSingleScene]⟩
      · rw [if_neg hrc]
        exact ⟨mapCharactersToScenes_sound _ _, fun _ => by simp [hone, createSingleScene]⟩

/-- C4 witness: the invariants evaluated on a concrete valid prompt whose
mapping is non-trivial. -/
theorem result_invariants_witness :
    (∃ cd ∈ (analyzePrompt [] "A person walks and then he runs").1.characterDescriptions,
      cd.characterId = "char_1") ∧
    (analyzePrompt [] "A person walks and then he runs").1.sceneCount =
      (analyzePrompt [] "A person walks and then he runs").1.scenes.length :=
  ⟨(result_invariants "A person walks and then he runs" []).1
      (1, ["char_1"]) (by decide) "char_1" (by decide),
    (result_invariants "A person walks and then he runs" []).2 (by decide)⟩

end Slop
